import Mathlib

/-!
# Verification of the interview-question normalizer

A shallow embedding of the core of the `ai-interview-question-generator`
repository: the prompt builder, the response normalizer with its fallback
chain, and the per-field sanitizers of `src/utils/gemini.ts`, together with
the submission handler of `src/App.tsx`.

JavaScript strings are modelled as `List Char`.  The string operations the
program uses (`trim`, `toLowerCase`, `split`, `replace` with its concrete
regular expressions, `match`, …) are embedded at ASCII granularity, which
covers every string the program's prompts, messages and regular expressions
manipulate.  Recursion that jumps over several characters at once carries an
explicit fuel argument (always called with the string length, which at most
one character is consumed per step cannot exhaust), so that every definition
evaluates by `decide`/`rfl`.
-/

/-- The backtick character (code fences are made of three of these). -/
def btick : Char := Char.ofNat 96

/-- Left curly brace. -/
def lbrace : Char := Char.ofNat 123

/-- Right curly brace. -/
def rbrace : Char := Char.ofNat 125

/-- JavaScript's whitespace class `\s`, restricted to ASCII:
space, tab, newline, carriage return, vertical tab, form feed. -/
def isJsWs (c : Char) : Bool :=
  c == ' ' || c == '\t' || c == '\n' || c == '\r' ||
  c == Char.ofNat 11 || c == Char.ofNat 12

/-- `String.prototype.trim`: drop whitespace from both ends. -/
def jsTrim (l : List Char) : List Char :=
  ((l.dropWhile isJsWs).reverse.dropWhile isJsWs).reverse

/-- `String.prototype.toLowerCase` (ASCII). -/
def jsToLower (l : List Char) : List Char := l.map Char.toLower

/-- Does `l` start with `pat` (character for character)? -/
def startsWithL : List Char → List Char → Bool
  | [], _ => true
  | _ :: _, [] => false
  | p :: ps, c :: cs => p == c && startsWithL ps cs

/-- Does `l` start with `pat`, compared case-insensitively (ASCII)? -/
def startsWithCI : List Char → List Char → Bool
  | [], _ => true
  | _ :: _, [] => false
  | p :: ps, c :: cs => p.toLower == c.toLower && startsWithCI ps cs

/-- Does `pat` occur as a contiguous segment of `l`? -/
def hasSub (pat : List Char) : List Char → Bool
  | [] => startsWithL pat []
  | c :: t => startsWithL pat (c :: t) || hasSub pat t

/-- Case-insensitive segment search. -/
def hasSubCI (pat : List Char) : List Char → Bool
  | [] => startsWithCI pat []
  | c :: t => startsWithCI pat (c :: t) || hasSubCI pat t

/-- Worker for `collapseWs`; the flag records whether the previous character
was whitespace (in which case the current run has already emitted its one
space). -/
def collapseWsGo : Bool → List Char → List Char
  | _, [] => []
  | prevWs, c :: rest =>
    if isJsWs c then
      if prevWs then collapseWsGo true rest
      else ' ' :: collapseWsGo true rest
    else c :: collapseWsGo false rest

/-- `.replace(/\s+/g, ' ')`: every maximal whitespace run becomes one space. -/
def collapseWs (l : List Char) : List Char := collapseWsGo false l

/-- First index at which three consecutive backticks start, if any. -/
def findTripleTick : List Char → Option Nat
  | [] => none
  | c :: rest =>
    if startsWithL [btick, btick, btick] (c :: rest) then some 0
    else (findTripleTick rest).map (· + 1)

/-- Fuel-driven worker for `removeFences`. -/
def removeFencesF : Nat → List Char → List Char
  | 0, l => l
  | _ + 1, [] => []
  | fuel + 1, c :: rest =>
    if startsWithL [btick, btick, btick] (c :: rest) then
      match findTripleTick (rest.drop 2) with
      | some j => removeFencesF fuel ((c :: rest).drop (3 + j + 3))
      | none => c :: removeFencesF fuel rest
    else c :: removeFencesF fuel rest

/-- `.replace(/```[\s\S]*?```/g, '')`: delete each lazily-paired fenced
block. -/
def removeFences (l : List Char) : List Char := removeFencesF l.length l

/-- `cleanText` of the source: strip fenced code blocks, collapse whitespace,
trim. -/
def cleanText (value : List Char) : List Char :=
  jsTrim (collapseWs (removeFences value))

/-- First index at which a block-comment closer `*/` starts. -/
def findCommentClose : List Char → Option Nat
  | [] => none
  | c :: rest =>
    if startsWithL ['*', '/'] (c :: rest) then some 0
    else (findCommentClose rest).map (· + 1)

/-- Fuel-driven worker for `removeBlockComments`. -/
def removeBlockCommentsF : Nat → List Char → List Char
  | 0, l => l
  | _ + 1, [] => []
  | fuel + 1, c :: rest =>
    if startsWithL ['/', '*'] (c :: rest) then
      match findCommentClose rest.tail with
      | some j => ' ' :: removeBlockCommentsF fuel ((c :: rest).drop (2 + j + 2))
      | none => c :: removeBlockCommentsF fuel rest
    else c :: removeBlockCommentsF fuel rest

/-- `.replace(/\/\*[\s\S]*?\*\//g, ' ')`: each lazily-paired block comment
becomes one space. -/
def removeBlockComments (l : List Char) : List Char :=
  removeBlockCommentsF l.length l

/-- The labels of the metadata regex in `cleanQuestionText`. -/
def metadataWords : List (List Char) :=
  ["type".data, "suggested answer".data, "key tips".data, "keywords".data,
   "answer structure".data, "reference url".data, "keytips".data,
   "behavioralstructure".data, "code example".data]

/-- After a label: `\s*` then a colon. -/
def wsThenColon (l : List Char) : Bool :=
  match l.dropWhile isJsWs with
  | c :: _ => c == ':'
  | [] => false

/-- Does a metadata label followed by `\s*:` start right here? -/
def wordColonAt (l : List Char) : Bool :=
  metadataWords.any fun w => startsWithCI w l && wsThenColon (l.drop w.length)

/-- Index of the first metadata match (the regex's `exec(...).index`). -/
def metadataIndexFrom (i : Nat) : List Char → Option Nat
  | [] => none
  | c :: rest => if wordColonAt (c :: rest) then some i else metadataIndexFrom (i + 1) rest

/-- Truncate the text at the first metadata label, as lines 225–229 do. -/
def metadataTruncate (l : List Char) : List Char :=
  match metadataIndexFrom 0 l with
  | some i => jsTrim (l.take i)
  | none => l

mutual
/-- Worker for `splitRuns`: accumulating the current piece (reversed). -/
def splitRunsGo (p : Char → Bool) (cur : List Char) : List Char → List (List Char)
  | [] => [cur.reverse]
  | c :: rest =>
    if p c then cur.reverse :: splitRunsAfterSep p rest
    else splitRunsGo p (c :: cur) rest

/-- Worker for `splitRuns`: inside a separator run. -/
def splitRunsAfterSep (p : Char → Bool) : List Char → List (List Char)
  | [] => [[]]
  | c :: rest =>
    if p c then splitRunsAfterSep p rest
    else splitRunsGo p [c] rest
end

/-- `String.prototype.split` on a regex `X+`: maximal runs of characters
satisfying `p` separate the pieces (empty edge pieces included, as in
JavaScript). -/
def splitRuns (p : Char → Bool) (l : List Char) : List (List Char) :=
  splitRunsGo p [] l

/-- The question-keyword alternation of `cleanQuestionText` (line 236). -/
def questionKeywordList : List (List Char) :=
  ["who".data, "what".data, "when".data, "where".data, "why".data, "how".data,
   "describe".data, "explain".data, "tell".data, "give".data, "walk".data,
   "imagine".data, "discuss".data, "share".data, "talk".data, "outline".data,
   "clarify".data, "focus".data]

/-- `questionKeywords.test(line)`: case-insensitive substring search. -/
def hasQuestionKeyword (l : List Char) : Bool :=
  questionKeywordList.any fun w => hasSubCI w l

/-- `isCodeLike` of the source (line 237–243). -/
def isCodeLike (line : List Char) : Bool :=
  (line.any fun c => c == lbrace || c == rbrace || c == btick || c == ';') ||
  (match line.dropWhile isJsWs with
   | c :: _ => c == '.' || c == '#'
   | [] => false) ||
  (match line.dropWhile isJsWs with
   | '<' :: '/' :: c :: _ => c.isAlpha
   | '<' :: c :: _ => c.isAlpha
   | _ => false) ||
  startsWithL "specificity".data (jsToLower line) ||
  hasSub " = ".data line ||
  (match line.dropWhile isJsWs with
   | c :: _ => c == '@'
   | [] => false)

/-- `.replace(/^(?:\d+\.\s*)/, '')`: strip one leading ordinal marker
(digits, a dot, optional whitespace). -/
def stripLeadingOrdinal (l : List Char) : List Char :=
  let ds := l.takeWhile Char.isDigit
  if ds.isEmpty then l
  else
    match l.drop ds.length with
    | '.' :: rest => rest.dropWhile isJsWs
    | _ => l

/-- Worker for `questionSentences`; `cur` is the reversed run of non-`?`
characters read so far. -/
def questionSentencesGo (cur : List Char) : List Char → List (List Char)
  | [] => []
  | c :: rest =>
    if c == '?' then
      if cur.isEmpty then questionSentencesGo [] rest
      else (cur.reverse ++ ['?']) :: questionSentencesGo [] rest
    else questionSentencesGo (c :: cur) rest

/-- `text.match(/[^?]+?\?/g)`: each maximal nonempty run of non-`?`
characters together with the `?` that ends it. -/
def questionSentences (l : List Char) : List (List Char) :=
  questionSentencesGo [] l

/-- `/[a-zA-Z]/.test(sentence)`. -/
def containsLetter (l : List Char) : Bool := l.any Char.isAlpha

/-- `.replace(/[-.:;,/]+$/, '')`: drop the trailing run of these punctuation
characters. -/
def stripTrailingPunct (l : List Char) : List Char :=
  (l.reverse.dropWhile fun c =>
    c == '-' || c == '.' || c == ':' || c == ';' || c == ',' || c == '/').reverse

/-- `.replace(/\?+$/, '?')`: collapse a trailing run of `?` to a single
`?` (an unchanged length means the run was empty and nothing is replaced). -/
def collapseTrailQ (l : List Char) : List Char :=
  if (l.reverse.dropWhile (· == '?')).length == l.length then l
  else (l.reverse.dropWhile (· == '?')).reverse ++ ['?']

/-- Lines 231–248: split into lines, trim, drop empties, then prefer a
non-code-like line with a question keyword, else any non-code-like line,
else the first line. -/
def selectQuestionLine (text : List Char) : List Char :=
  let lines := ((splitRuns (fun c => c == '\r' || c == '\n') text).map jsTrim).filter
    fun l => !l.isEmpty
  let keywordLine := lines.find? fun l => hasQuestionKeyword l && !isCodeLike l
  let fallbackLine := lines.find? fun l => !isCodeLike l
  jsTrim ((keywordLine.orElse fun _ => fallbackLine).getD (lines.headD []))

/-- Lines 251–255: when the text holds `?`-terminated sentences, keep the
first one containing a letter (or the first one). -/
def pickQuestionSentence (text : List Char) : List Char :=
  match questionSentences text with
  | [] => text
  | q :: qs => jsTrim (((q :: qs).find? containsLetter).getD q)

/-- Lines 259–264: guarantee a trailing `?`, collapse a run of them, trim. -/
def finishQuestion (text : List Char) : List Char :=
  if text.getLast? == some '?' then jsTrim (collapseTrailQ text)
  else jsTrim (collapseTrailQ (jsTrim (stripTrailingPunct text) ++ ['?']))

/-- `cleanQuestionText` of the source (lines 219–265), stage by stage. -/
def cleanQuestionText (value : List Char) : List Char :=
  let text := cleanText value
  if text.isEmpty then []
  else
    finishQuestion (jsTrim (collapseWs (pickQuestionSentence (stripLeadingOrdinal
      (selectQuestionLine (metadataTruncate (removeBlockComments text)))))))

/-- `cleanCode` of the source (lines 267–273). -/
def cleanCode (value : List Char) : List Char :=
  let trimmed := jsTrim value
  if startsWithL [btick, btick, btick] trimmed then
    let t := (trimmed.drop 3).dropWhile Char.isAlpha
    let t := match t with
             | '\n' :: rest => rest
             | _ => t
    let t := if (t.reverse.take 3) == [btick, btick, btick] then t.dropLast.dropLast.dropLast else t
    jsTrim t
  else trimmed

/-- A minimal model of the WHATWG `URL` constructor the source calls (a
platform API, not repository code): parsing succeeds exactly for strings
that start with an ASCII-alphabetic scheme followed by a colon, and the
returned `href` is the input itself.  No claim depends on finer URL
behaviour. -/
def parseAbsoluteUrl (v : List Char) : Option (List Char) :=
  match v with
  | c :: rest =>
    if c.isAlpha &&
        ((rest.dropWhile fun d => d.isAlpha || d.isDigit || d == '+' || d == '-' || d == '.').headD ' ' == ':')
    then some v else none
  | [] => none

/-- The run-time values JavaScript's `JSON.parse` can produce.  Numbers keep
their lexeme: no claim depends on numeric values, only on a number not being
a string. -/
inductive JVal where
  | null : JVal
  | bool (b : Bool) : JVal
  | num (lexeme : List Char) : JVal
  | str (s : List Char) : JVal
  | arr (elems : List JVal) : JVal
  | obj (fields : List (List Char × JVal)) : JVal

/-- Property lookup on a run-time value: `none` models `undefined` (absent
field, or access on a non-object through `?.`).  Later duplicate keys win,
as in JavaScript objects. -/
def jLookup (v : JVal) (key : List Char) : Option JVal :=
  match v with
  | .obj fields => (fields.reverse.find? fun f => f.1 == key).map (·.2)
  | _ => none

/-- JavaScript truthiness of a run-time value.  A number is falsy exactly
when its lexeme denotes zero (every mantissa digit is `0`). -/
def jvTruthy : JVal → Bool
  | .null => false
  | .bool b => b
  | .str s => !s.isEmpty
  | .num lexeme =>
    !((lexeme.takeWhile fun c => c != 'e' && c != 'E').all fun c => !c.isDigit || c == '0')
  | .arr _ => true
  | .obj _ => true

mutual
/-- JavaScript's `String(...)` conversion, at the fidelity the claims need
(a number stringifies to its JSON lexeme). -/
def jsStringOf : JVal → List Char
  | .null => "null".data
  | .bool true => "true".data
  | .bool false => "false".data
  | .num lexeme => lexeme
  | .str s => s
  | .arr elems => jsStringOfElems elems
  | .obj _ => "[object Object]".data

/-- `String([...])`: elements joined with commas. -/
def jsStringOfElems : List JVal → List Char
  | [] => []
  | [v] => jsStringOf v
  | v :: w :: rest => jsStringOf v ++ [','] ++ jsStringOfElems (w :: rest)
end

/-- The two question types. -/
inductive QType where
  | technical : QType
  | behavioral : QType
deriving DecidableEq

/-- The three difficulty levels. -/
inductive Difficulty where
  | junior : Difficulty
  | midLevel : Difficulty
  | senior : Difficulty
deriving DecidableEq

/-- `GeneratedQuestionCard` of the source.  `behavioralStructure` is always
populated by the code, so it is a plain list; `codeExample` and
`referenceUrl` stay optional, as in the interface. -/
structure GeneratedQuestionCard where
  question : List Char
  type : QType
  difficulty : Difficulty
  suggestedAnswer : List Char
  keyTips : List (List Char)
  keywords : List (List Char)
  codeExample : Option (List Char)
  behavioralStructure : List (List Char)
  referenceUrl : Option (List Char)
deriving DecidableEq

/-- `normalizeDifficulty` of the source (lines 152–158). -/
def normalizeDifficulty (value : List Char) : Difficulty :=
  let normalized := jsToLower (jsTrim value)
  if hasSub "junior".data normalized || hasSub "entry".data normalized then .junior
  else if hasSub "senior".data normalized || hasSub "lead".data normalized then .senior
  else .midLevel

/-- `buildDefaultTips` of the source. -/
def buildDefaultTips : QType → List (List Char)
  | .technical =>
    ["Clarify any assumptions before diving into the solution.".data,
     "Explain the trade-offs and reasoning behind your approach.".data,
     "Relate the concept back to real projects or performance considerations.".data]
  | .behavioral =>
    ["Set the scene quickly with the role, team, and stakes.".data,
     "Highlight the specific actions you took and why.".data,
     "Share measurable outcomes and lessons learned.".data]

/-- `buildBehavioralFlow` of the source. -/
def buildBehavioralFlow : List (List Char) :=
  ["Situation — Set the context and why it mattered.".data,
   "Task — Clarify your responsibility and success criteria.".data,
   "Action — Walk through the decisive steps you took and why.".data,
   "Result — Quantify the outcome and key lesson learned.".data]

/-- `buildTechnicalFlow` of the source. -/
def buildTechnicalFlow : List (List Char) :=
  ["Clarify requirements and constraints up front.".data,
   "Outline the high-level approach and supporting architecture.".data,
   "Dive into implementation details, tooling, and trade-offs.".data,
   "Explain validation, testing, and performance considerations.".data,
   "Discuss follow-up optimizations or scaling strategies.".data]

/-- `buildAnswerFlow` of the source. -/
def buildAnswerFlow : QType → List (List Char)
  | .behavioral => buildBehavioralFlow
  | .technical => buildTechnicalFlow

/-- `capitalize` of the source: upper-case the first character. -/
def capitalize : List Char → List Char
  | [] => []
  | c :: rest => c.toUpper :: rest

/-- `.replace(/[^a-zA-Z0-9\s]/g, ' ')`. -/
def replaceNonAlnum (l : List Char) : List Char :=
  l.map fun c => if c.isAlpha || c.isDigit || isJsWs c then c else ' '

/-- The token pipeline of `deriveKeywords` up to the length filter, with the
case fold applied: split on whitespace, trim, keep tokens longer than two
characters, lower-case them. -/
def loweredTokens (question : List Char) : List (List Char) :=
  ((((splitRuns isJsWs (replaceNonAlnum question)).map jsTrim).filter
      fun t => 2 < t.length)).map jsToLower

/-- Worker for `setDedup`: drop every element already seen. -/
def setDedupGo (seen : List (List Char)) : List (List Char) → List (List Char)
  | [] => []
  | t :: rest =>
    if t ∈ seen then setDedupGo seen rest
    else t :: setDedupGo (t :: seen) rest

/-- `Array.from(new Set(...))`: first occurrences, in insertion order. -/
def setDedup (l : List (List Char)) : List (List Char) := setDedupGo [] l

/-- `deriveKeywords` of the source (lines 301–310). -/
def deriveKeywords (question : List Char) : List (List Char) :=
  ((setDedup (loweredTokens question)).take 5).map capitalize

/-- `detectQuestionType` of the source (lines 397–406). -/
def behavioralPhrases : List (List Char) :=
  ["describe a time".data, "tell me about".data, "how did you handle".data,
   "give an example".data, "walk me through".data]

/-- Behavioral-keyword match on the lower-cased question. -/
def detectQuestionType (question : List Char) : QType :=
  if behavioralPhrases.any (fun w => hasSub w (jsToLower question)) then .behavioral
  else .technical

/-- `validateUrl` of the source (lines 275–283): only strings are parsed. -/
def validateUrl : Option JVal → Option (List Char)
  | some (.str s) => parseAbsoluteUrl s
  | _ => none

/-- `cleanText(x ?? '')` on a run-time field value: `undefined`/`null`
coalesce to the empty string, a string is cleaned, anything else makes the
JavaScript `value.replace(...)` call throw a `TypeError`. -/
def jsCleanTextOf : Option JVal → Except Unit (List Char)
  | none => .ok (cleanText [])
  | some .null => .ok (cleanText [])
  | some (.str s) => .ok (cleanText s)
  | some _ => .error ()

/-- The usable-question test of line 164: `item?.question` must be a truthy
string.  Returns the question text when usable. -/
def questionField (item : JVal) : Option (List Char) :=
  match jLookup item "question".data with
  | some (.str s) => if s.isEmpty then none else some s
  | _ => none

/-- `item.type === 'behavioral' ? 'behavioral' : 'technical'`: strict
equality with a string literal holds only for that very string. -/
def typeField (item : JVal) : QType :=
  match jLookup item "type".data with
  | some (.str s) => if s == "behavioral".data then .behavioral else .technical
  | _ => .technical

/-- Lines 170–172: a supplied difficulty is used only when it is one of the
three literal strings; otherwise the fallback applies. -/
def difficultyField (item : JVal) (fallback : Difficulty) : Difficulty :=
  match jLookup item "difficulty".data with
  | some (.str s) =>
    if s == "Junior".data then .junior
    else if s == "Mid-Level".data then .midLevel
    else if s == "Senior".data then .senior
    else fallback
  | _ => fallback

/-- A string-array field sanitized as on lines 182–195: only a run-time
array is mapped (each element through `String(...)` then `cleanText`),
anything else yields the empty list. -/
def cleanedArrayField (item : JVal) (key : List Char) : List (List Char) :=
  match jLookup item key with
  | some (.arr elems) => (elems.map fun e => cleanText (jsStringOf e)).filter fun t => !t.isEmpty
  | _ => []

/-- The `codeExample` computation of lines 197–200: for a technical card a
truthy value is passed to `cleanCode`, which throws on a non-string. -/
def codeExampleField (item : JVal) (type : QType) : Except Unit (Option (List Char)) :=
  match type, jLookup item "codeExample".data with
  | .technical, some v =>
    if jvTruthy v then
      match v with
      | .str s => .ok (some (cleanCode s))
      | _ => .error ()
    else .ok none
  | _, _ => .ok none

/-- `sanitizeQuestion` of the source (lines 160–213), over run-time values
as `JSON.parse` delivers them.  `Except.error` models the `TypeError` the
JavaScript code throws when a supplied `suggestedAnswer` or a truthy
technical `codeExample` is not a string. -/
def sanitizeQuestion (item : JVal) (fallbackDifficulty : List Char) :
    Except Unit (Option GeneratedQuestionCard) :=
  match questionField item with
  | none => .ok none
  | some q =>
    let type := typeField item
    let fallback := normalizeDifficulty fallbackDifficulty
    let difficulty := difficultyField item fallback
    let questionText := cleanQuestionText q
    match jsCleanTextOf (jLookup item "suggestedAnswer".data) with
    | .error e => .error e
    | .ok suggestedAnswer =>
      let defaultAnswer :=
        if !suggestedAnswer.isEmpty then suggestedAnswer
        else match type with
          | .technical =>
            "Describe your approach to ".data ++ questionText ++
              " with clear reasoning, practical tradeoffs, and reference to relevant tools or patterns you trust.".data
          | .behavioral =>
            "Walk through a real example using the STAR method (Situation, Task, Action, Result) that showcases how you handled ".data ++
              questionText ++ [ '.' ]
      let sanitizedTips := cleanedArrayField item "keyTips".data
      let keyTips := if !sanitizedTips.isEmpty then sanitizedTips else buildDefaultTips type
      let sanitizedKeywords := cleanedArrayField item "keywords".data
      let keywords := if !sanitizedKeywords.isEmpty then sanitizedKeywords else deriveKeywords questionText
      let providedFlow := cleanedArrayField item "behavioralStructure".data
      let behavioralStructure := if !providedFlow.isEmpty then providedFlow else buildAnswerFlow type
      match codeExampleField item type with
      | .error e => .error e
      | .ok codeExample =>
        .ok (some
          { question := questionText
            type := type
            difficulty := difficulty
            suggestedAnswer := defaultAnswer
            keyTips := keyTips
            keywords := keywords
            codeExample := codeExample
            behavioralStructure := behavioralStructure
            referenceUrl := validateUrl (jLookup item "referenceUrl".data) })

/-- JSON's whitespace (what `JSON.parse` skips between tokens). -/
def skipJsonWs (l : List Char) : List Char :=
  l.dropWhile fun c => c == ' ' || c == '\t' || c == '\n' || c == '\r'

/-- Value of a hexadecimal digit. -/
def hexVal (c : Char) : Option Nat :=
  if c.isDigit then some (c.toNat - 48)
  else if 'a' ≤ c && c ≤ 'f' then some (c.toNat - 87)
  else if 'A' ≤ c && c ≤ 'F' then some (c.toNat - 55)
  else none

/-- Single-character JSON escapes. -/
def jsonEscape (c : Char) : Option Char :=
  if c == '"' || c == '\\' || c == '/' then some c
  else if c == 'b' then some (Char.ofNat 8)
  else if c == 'f' then some (Char.ofNat 12)
  else if c == 'n' then some '\n'
  else if c == 'r' then some '\r'
  else if c == 't' then some '\t'
  else none

/-- Body of a JSON string literal (after the opening quote): the decoded
characters and the remainder after the closing quote.  Raw control
characters are rejected, as by `JSON.parse`. -/
def parseJStrBody : List Char → Option (List Char × List Char)
  | [] => none
  | '"' :: rest => some ([], rest)
  | '\\' :: 'u' :: a :: b :: c :: d :: rest =>
    match hexVal a, hexVal b, hexVal c, hexVal d with
    | some x, some y, some z, some w =>
      (parseJStrBody rest).map fun sr =>
        (Char.ofNat (((x * 16 + y) * 16 + z) * 16 + w) :: sr.1, sr.2)
    | _, _, _, _ => none
  | '\\' :: e :: rest =>
    match jsonEscape e with
    | some c => (parseJStrBody rest).map fun sr => (c :: sr.1, sr.2)
    | none => none
  | c :: rest =>
    if c.toNat < 32 then none
    else (parseJStrBody rest).map fun sr => (c :: sr.1, sr.2)

/-- Lexeme of a JSON number at the head of the input, with the remainder. -/
def parseJNum (l : List Char) : Option (JVal × List Char) :=
  let (sign, l1) := match l with
                    | '-' :: rest => (['-'], rest)
                    | _ => ([], l)
  let intLex : Option (List Char × List Char) :=
    match l1 with
    | '0' :: rest => some (['0'], rest)
    | c :: _ =>
      if c.isDigit then
        let ds := l1.takeWhile Char.isDigit
        some (ds, l1.drop ds.length)
      else none
    | [] => none
  match intLex with
  | none => none
  | some (ip, l2) =>
    let (fp, l3) :=
      match l2 with
      | '.' :: rest =>
        let ds := rest.takeWhile Char.isDigit
        if ds.isEmpty then ([], l2) else ('.' :: ds, rest.drop ds.length)
      | _ => ([], l2)
    let fracBad := match l2 with
                   | '.' :: rest => (rest.takeWhile Char.isDigit).isEmpty
                   | _ => false
    if fracBad then none
    else
      let expLex : Option (List Char × List Char) :=
        match l3 with
        | e :: rest =>
          if e == 'e' || e == 'E' then
            let (es, rest2) := match rest with
                               | s :: r2 => if s == '+' || s == '-' then ([e, s], r2) else ([e], rest)
                               | [] => ([e], rest)
            let ds := rest2.takeWhile Char.isDigit
            if ds.isEmpty then none else some (es ++ ds, rest2.drop ds.length)
          else some ([], l3)
        | [] => some ([], l3)
      match expLex with
      | none => none
      | some (ep, l4) => some (.num (sign ++ ip ++ fp ++ ep), l4)

mutual
/-- `JSON.parse`'s recursive-descent value parser, with fuel. -/
def parseJVal : Nat → List Char → Option (JVal × List Char)
  | 0, _ => none
  | fuel + 1, l =>
    match skipJsonWs l with
    | 'n' :: 'u' :: 'l' :: 'l' :: rest => some (.null, rest)
    | 't' :: 'r' :: 'u' :: 'e' :: rest => some (.bool true, rest)
    | 'f' :: 'a' :: 'l' :: 's' :: 'e' :: rest => some (.bool false, rest)
    | '"' :: rest => (parseJStrBody rest).map fun sr => (.str sr.1, sr.2)
    | '[' :: rest =>
      (match skipJsonWs rest with
       | ']' :: r2 => some (.arr [], r2)
       | r => (parseJArrItems fuel r).map fun xr => (.arr xr.1, xr.2))
    | c :: rest =>
      if c == lbrace then
        let r := skipJsonWs rest
        if r.headD ' ' == rbrace then some (.obj [], r.tail)
        else (parseJObjItems fuel r).map fun fr => (.obj fr.1, fr.2)
      else parseJNum (c :: rest)
    | [] => none

/-- One-or-more array elements separated by commas, ending at `]`. -/
def parseJArrItems : Nat → List Char → Option (List JVal × List Char)
  | 0, _ => none
  | fuel + 1, l =>
    match parseJVal fuel l with
    | none => none
    | some (v, r) =>
      match skipJsonWs r with
      | ',' :: r2 => (parseJArrItems fuel r2).map fun xr => (v :: xr.1, xr.2)
      | ']' :: r2 => some ([v], r2)
      | _ => none

/-- One-or-more object members, ending at `}` (the head of the input is
already whitespace-skipped). -/
def parseJObjItems : Nat → List Char → Option (List (List Char × JVal) × List Char)
  | 0, _ => none
  | fuel + 1, l =>
    match l with
    | '"' :: rest =>
      (match parseJStrBody rest with
       | none => none
       | some (k, r) =>
         match skipJsonWs r with
         | ':' :: r2 =>
           (match parseJVal fuel r2 with
            | none => none
            | some (v, r3) =>
              match skipJsonWs r3 with
              | ',' :: r4 => (parseJObjItems fuel (skipJsonWs r4)).map fun fr => ((k, v) :: fr.1, fr.2)
              | r5 =>
                if r5.headD ' ' == rbrace then some ([(k, v)], r5.tail) else none)
         | _ => none)
    | _ => none
end

/-- `JSON.parse`: a single value and nothing but trailing whitespace. -/
def jsonParse (l : List Char) : Option JVal :=
  match parseJVal (2 * l.length + 4) l with
  | some (v, r) => if (skipJsonWs r).isEmpty then some v else none
  | none => none

/-- First index of a character in a list. -/
def firstIdxOf (c : Char) : List Char → Option Nat
  | [] => none
  | d :: rest => if d == c then some 0 else (firstIdxOf c rest).map (· + 1)

/-- Last index of a character in a list. -/
def lastIdxOf (c : Char) (l : List Char) : Option Nat :=
  (firstIdxOf c l.reverse).map fun i => l.length - 1 - i

/-- `extractJsonBlock` of the source (lines 142–150): from the first `{` to
the last `}`. -/
def extractJsonBlock (raw : List Char) : Option (List Char) :=
  match firstIdxOf lbrace raw, lastIdxOf rbrace raw with
  | some start, some stop =>
    if stop ≤ start then none
    else some ((raw.drop start).take (stop + 1 - start))
  | _, _ => none

/-- The core `As\s+(a|an)\s[^?]+\?` of the contextual pattern, attempted at
the head of `l`; returns the number of characters matched. -/
def asCoreAt (l : List Char) : Option Nat :=
  match l with
  | c0 :: c1 :: rest =>
    if c0.toLower == 'a' && c1.toLower == 's' then
      let ws := rest.takeWhile isJsWs
      if ws.isEmpty then none
      else
        let r2 := rest.drop ws.length
        let artLen : Option Nat :=
          match r2 with
          | a :: w :: _ => if a.toLower == 'a' && isJsWs w then some 2 else none
          | _ => none
        let artLen : Option Nat :=
          match artLen with
          | some n => some n
          | none =>
            match r2 with
            | a :: n :: w :: _ =>
              if a.toLower == 'a' && n.toLower == 'n' && isJsWs w then some 3 else none
            | _ => none
        match artLen with
        | none => none
        | some k =>
          let r3 := r2.drop k
          let content := r3.takeWhile fun c => c != '?'
          if content.isEmpty then none
          else if (r3.drop content.length).headD ' ' == '?' then
            some (2 + ws.length + k + content.length + 1)
          else none
    else none
  | _ => none

/-- One attempt of `/(?:\d+\.\s*)?(?:As\s+(?:a|an)\s[^?]+\?)/i` at the head
of `l`: the greedy optional ordinal first, then the bare pattern. -/
def contextualAt (l : List Char) : Option (Nat × List Char) :=
  let withOrd : Option Nat :=
    let ds := l.takeWhile Char.isDigit
    if ds.isEmpty then none
    else
      match l.drop ds.length with
      | '.' :: rest2 =>
        let ws := rest2.takeWhile isJsWs
        (asCoreAt (rest2.drop ws.length)).map fun n => ds.length + 1 + ws.length + n
      | _ => none
  match withOrd with
  | some n => some (n, l.take n)
  | none => (asCoreAt l).map fun n => (n, l.take n)

/-- The lookahead `(?=\n\d+\.\s+)` of the numbered-list pattern. -/
def lookNumNL : List Char → Bool
  | '\n' :: t =>
    let ds := t.takeWhile Char.isDigit
    !ds.isEmpty &&
      (match t.drop ds.length with
       | '.' :: u => isJsWs (u.headD 'x')
       | _ => false)
  | _ => false

/-- Length of the lazy `[^]+?` content: at least one character, stopping at
the first position where the numbered lookahead (or the end) holds. -/
def findStopNum : List Char → Nat
  | [] => 0
  | _ :: rest =>
    if lookNumNL rest then 1
    else
      match rest with
      | [] => 1
      | _ :: _ => 1 + findStopNum rest

/-- One attempt of `/\d+\.\s+[^]+?(?=(?:\n\d+\.\s+)|$)/` at the head of `l`.
When the greedy `\s+` leaves no content, the engine backtracks one
whitespace character into the content, which needs the run to have length at
least two. -/
def numberedAt (l : List Char) : Option (Nat × List Char) :=
  let ds := l.takeWhile Char.isDigit
  if ds.isEmpty then none
  else
    match l.drop ds.length with
    | '.' :: rest2 =>
      let ws := rest2.takeWhile isJsWs
      if ws.isEmpty then none
      else
        let rest3 := rest2.drop ws.length
        if rest3.isEmpty then
          if 2 ≤ ws.length then
            let n := ds.length + 1 + ws.length
            some (n, l.take n)
          else none
        else
          let n := ds.length + 1 + ws.length + findStopNum rest3
          some (n, l.take n)
    | _ => none

/-- The lookahead `(?=\n[-*]\s+)` of the bulleted-list pattern. -/
def lookBulletNL : List Char → Bool
  | '\n' :: m :: u => (m == '-' || m == '*') && isJsWs (u.headD 'x')
  | _ => false

/-- Content length for the bulleted pattern, as `findStopNum`. -/
def findStopBul : List Char → Nat
  | [] => 0
  | _ :: rest =>
    if lookBulletNL rest then 1
    else
      match rest with
      | [] => 1
      | _ :: _ => 1 + findStopBul rest

/-- One attempt of `/[-*]\s+[^]+?(?=(?:\n[-*]\s+)|$)/` at the head of `l`. -/
def bulletAt (l : List Char) : Option (Nat × List Char) :=
  match l with
  | m :: rest2 =>
    if m == '-' || m == '*' then
      let ws := rest2.takeWhile isJsWs
      if ws.isEmpty then none
      else
        let rest3 := rest2.drop ws.length
        if rest3.isEmpty then
          if 2 ≤ ws.length then
            let n := 1 + ws.length
            some (n, l.take n)
          else none
        else
          let n := 1 + ws.length + findStopBul rest3
          some (n, l.take n)
    else none
  | [] => none

/-- Global regex scan: leftmost match, then continue after its end (the
`max · 1` only guards the fuel argument; every matcher consumes at least one
character). -/
def scanMatchesF (f : List Char → Option (Nat × List Char)) : Nat → List Char → List (List Char)
  | 0, _ => []
  | _ + 1, [] => []
  | fuel + 1, c :: rest =>
    match f (c :: rest) with
    | some (n, m) => m :: scanMatchesF f fuel ((c :: rest).drop (max n 1))
    | none => scanMatchesF f fuel rest

/-- `raw.match(/(?:\d+\.\s*)?(?:As\s+(?:a|an)\s[^?]+\?)/gi)`. -/
def contextualMatches (raw : List Char) : List (List Char) :=
  scanMatchesF contextualAt raw.length raw

/-- `raw.match(/\d+\.\s+[^]+?(?=(?:\n\d+\.\s+)|$)/g)`. -/
def numberedMatches (raw : List Char) : List (List Char) :=
  scanMatchesF numberedAt raw.length raw

/-- `raw.match(/[-*]\s+[^]+?(?=(?:\n[-*]\s+)|$)/g)`. -/
def bulletMatches (raw : List Char) : List (List Char) :=
  scanMatchesF bulletAt raw.length raw

/-- `[A-Z0-9]`. -/
def isUpperDigit (c : Char) : Bool := c.isUpper || c.isDigit

/-- `raw.split(/(?<=[?.!])\s+(?=[A-Z0-9])/)`: a separator is a whitespace
run whose preceding character is `?`, `.` or `!` and whose following
character is an upper-case letter or digit.  `cur` is the reversed current
piece. -/
def sentenceSplitF : Nat → List Char → List Char → List (List Char)
  | 0, cur, l => [cur.reverse ++ l]
  | _ + 1, cur, [] => [cur.reverse]
  | fuel + 1, cur, c :: rest =>
    if isJsWs c &&
        (match cur with
         | p :: _ => p == '?' || p == '.' || p == '!'
         | [] => false) then
      match rest.dropWhile isJsWs with
      | d :: after2 =>
        if isUpperDigit d then cur.reverse :: sentenceSplitF fuel [] (d :: after2)
        else sentenceSplitF fuel (c :: cur) rest
      | [] => sentenceSplitF fuel (c :: cur) rest
    else sentenceSplitF fuel (c :: cur) rest

/-- The sentence-split pieces. -/
def sentenceSplit (raw : List Char) : List (List Char) :=
  sentenceSplitF raw.length [] raw

/-- Lines 382–385: split, trim, keep pieces longer than 10 characters. -/
def sentencePieces (raw : List Char) : List (List Char) :=
  ((sentenceSplit raw).map jsTrim).filter fun p => 10 < p.length

/-- `.replace(/^\d+\.?\s*/, '')` (the dot is optional here). -/
def stripLineOrdinal (l : List Char) : List Char :=
  let ds := l.takeWhile Char.isDigit
  if ds.isEmpty then l
  else
    let r := l.drop ds.length
    let r := match r with
             | '.' :: t => t
             | _ => r
    r.dropWhile isJsWs

/-- `.replace(/^[-*]\s*/, '')`. -/
def stripBulletMark : List Char → List Char
  | [] => []
  | c :: rest =>
    if c == '-' || c == '*' then rest.dropWhile isJsWs else c :: rest

/-- Lines 391–395: the last-resort line split. -/
def linePieces (raw : List Char) : List (List Char) :=
  ((splitRuns (· == '\n') raw).map fun line =>
    jsTrim (stripBulletMark (stripLineOrdinal line))).filter fun p => 10 < p.length

/-- The numbered-list stage's question strings (marker stripped, trimmed,
empties dropped), as on line 374. -/
def numberedQuestions (raw : List Char) : List (List Char) :=
  ((numberedMatches raw).map fun seg => jsTrim (stripLeadingOrdinal seg)).filter
    fun q => !q.isEmpty

/-- The bulleted-list stage's question strings (line 379). -/
def bulletQuestions (raw : List Char) : List (List Char) :=
  ((bulletMatches raw).map fun seg => jsTrim (stripBulletMark seg)).filter
    fun q => !q.isEmpty

/-- `extractQuestionsFromText` of the source (lines 366–395). -/
def extractQuestionsFromText (raw : List Char) : List (List Char) :=
  let contextual := contextualMatches raw
  if !contextual.isEmpty then contextual.map jsTrim
  else if !(numberedMatches raw).isEmpty then numberedQuestions raw
  else if !(bulletMatches raw).isEmpty then bulletQuestions raw
  else
    let sentences := sentencePieces raw
    if !sentences.isEmpty then sentences.take 5
    else linePieces raw

/-- `fallbackCardsFromText` of the source (lines 339–364). -/
def fallbackCardsFromText (raw fallbackDifficulty : List Char) :
    List GeneratedQuestionCard :=
  let questions := extractQuestionsFromText raw
  if questions.isEmpty then []
  else
    let difficulty := normalizeDifficulty fallbackDifficulty
    (questions.take 5).map fun question =>
      let type := detectQuestionType question
      let cleaned := cleanQuestionText question
      { question := cleaned
        type := type
        difficulty := difficulty
        suggestedAnswer :=
          match type with
          | .technical =>
            "Outline how you would tackle ".data ++ jsToLower cleaned ++
              ", covering the tools, trade-offs, and validation steps.".data
          | .behavioral =>
            "Structure your response with Situation, Task, Action, and Result while emphasizing the key lesson learned.".data
        keyTips := buildDefaultTips type
        keywords := deriveKeywords cleaned
        codeExample := none
        behavioralStructure := buildAnswerFlow type
        referenceUrl := none }

/-- `parsed?.questions` when it is an array. -/
def questionsArrayOf (v : JVal) : Option (List JVal) :=
  match jLookup v "questions".data with
  | some (.arr xs) => some xs
  | _ => none

/-- `normalizeQuestions` of the source (lines 118–140).  `none` inside
`viaJson` stands for every way the `try` block falls through to the text
fallback: no `{...}` block, `JSON.parse` throwing, no `questions` array, a
sanitizer `TypeError` (caught by the same `catch`), or zero surviving
cards. -/
def normalizeQuestions (raw fallbackDifficulty : List Char) :
    List GeneratedQuestionCard :=
  if (jsTrim raw).isEmpty then []
  else
    let viaJson : Option (List GeneratedQuestionCard) :=
      match extractJsonBlock raw with
      | none => none
      | some json =>
        match jsonParse json with
        | none => none
        | some parsed =>
          match questionsArrayOf parsed with
          | none => none
          | some items =>
            match items.mapM (fun item => sanitizeQuestion item fallbackDifficulty) with
            | .error _ => none
            | .ok opts =>
              let cards := opts.filterMap id
              if cards.isEmpty then none else some cards
    match viaJson with
    | some cards => cards
    | none => fallbackCardsFromText raw fallbackDifficulty

/-- The failure conditions `generateInterviewQuestions` can raise. -/
inductive GenError where
  | configurationError (message : List Char)
  | requestFailed (status : Nat) (detail : Option (List Char))
  | emptyResult
deriving DecidableEq

/-- Lines 64–72: normalize the candidate text, raise on an empty result,
return at most five cards. -/
def processResponseText (text experience : List Char) :
    Except GenError (List GeneratedQuestionCard) :=
  let structuredQuestions := normalizeQuestions text experience
  if structuredQuestions.length == 0 then .error .emptyResult
  else .ok (structuredQuestions.take 5)

/-- `GeminiContentPart`: `text` is an arbitrary run-time value (only strings
survive extraction). -/
structure GeminiContentPart where
  text : Option JVal

/-- `GeminiContent`. -/
structure GeminiContent where
  parts : Option (List GeminiContentPart)

/-- `GeminiCandidate`. -/
structure GeminiCandidate where
  content : Option GeminiContent

/-- `GeminiGenerateContentResponse`. -/
structure GeminiGenerateContentResponse where
  candidates : Option (List GeminiCandidate)

/-- `join(sep)`. -/
def joinWith (sep : Char) : List (List Char) → List Char
  | [] => []
  | [x] => x
  | x :: y :: rest => x ++ sep :: joinWith sep (y :: rest)

/-- `extractFirstCandidateText` of the source (lines 109–116). -/
def extractFirstCandidateText (payload : GeminiGenerateContentResponse) : List Char :=
  match payload.candidates with
  | none => []
  | some cs =>
    let parts := cs.flatMap fun cand =>
      match cand.content with
      | some content => content.parts.getD []
      | none => []
    let texts := (parts.map fun part =>
      match part.text with
      | some (.str t) => jsTrim t
      | _ => []).filter fun t => !t.isEmpty
    joinWith '\n' texts

/-- The build-time configuration the function reads (lines 29–31). -/
structure GeminiEnv where
  apiKey : Option (List Char)
  model : Option (List Char)
  apiVersion : Option (List Char)

/-- The outcome of the `fetch` collaborator: a non-2xx response (with the
parsed error detail) or a successful payload. -/
inductive FetchOutcome where
  | failed (status : Nat) (errorDetail : Option (List Char))
  | succeeded (payload : GeminiGenerateContentResponse)

/-- Default model name (line 1). -/
def DEFAULT_GEMINI_MODEL : List Char := "gemini-1.5-flash-002".data

/-- Default API version (line 3). -/
def DEFAULT_GEMINI_API_VERSION : List Char := "v1".data

/-- `generateInterviewQuestions` of the source (lines 25–73), with the
network call abstracted into the `FetchOutcome` parameter. -/
def generateInterviewQuestions (env : GeminiEnv) (fetchResult : FetchOutcome)
    (_jobTitle experience : List Char) : Except GenError (List GeneratedQuestionCard) :=
  let apiKey := env.apiKey.getD []
  let model := jsTrim (env.model.getD DEFAULT_GEMINI_MODEL)
  let apiVersion := jsTrim (env.apiVersion.getD DEFAULT_GEMINI_API_VERSION)
  if apiKey.isEmpty then
    .error (.configurationError "Missing Gemini API key. Please set VITE_GEMINI_API_KEY in your environment.".data)
  else if model.isEmpty then
    .error (.configurationError "Missing Gemini model. Provide VITE_GEMINI_MODEL or use the default configuration.".data)
  else if apiVersion.isEmpty then
    .error (.configurationError "Missing Gemini API version. Provide VITE_GEMINI_API_VERSION or use the default configuration.".data)
  else
    match fetchResult with
    | .failed status detail => .error (.requestFailed status detail)
    | .succeeded payload => processResponseText (extractFirstCandidateText payload) experience

/-- `App.tsx` line 5. -/
def API_ERROR_MESSAGE : List Char := "Something went wrong. Please try again later.".data

/-- `App.tsx` line 6. -/
def EMPTY_RESULT_MESSAGE : List Char := "No questions found. Try a different title.".data

/-- The error message `handleSubmit` of `App.tsx` (lines 21–51) leaves in
state for a given outcome of `generateInterviewQuestions`: every thrown
error lands in the `catch` and shows the generic message; the empty-result
message is shown only for a returned empty array. -/
def handleSubmitMessage (result : Except GenError (List GeneratedQuestionCard)) :
    Option (List Char) :=
  match result with
  | .error _ => some API_ERROR_MESSAGE
  | .ok generatedQuestions =>
    if generatedQuestions.length == 0 then some EMPTY_RESULT_MESSAGE else none

/-- `jobTitle.trim() || 'software engineer'` (line 76). -/
def safeTitle (jobTitle : List Char) : List Char :=
  if (jsTrim jobTitle).isEmpty then "software engineer".data else jsTrim jobTitle

/-- `experience.trim() || 'mid-level'` (line 77). -/
def safeExperience (experience : List Char) : List Char :=
  if (jsTrim experience).isEmpty then "mid-level".data else jsTrim experience

/-- The prompt template up to the first interpolation. -/
def promptPartA : List Char :=
  ("You are an experienced interviewer and career coach.\nGenerate five interview questions for a ").data

/-- The prompt template between `${safeTitle}` and the second
`${safeExperience}` (the braces of the JSON sketch written as `\x7b`/`\x7d`). -/
def promptPartB : List Char :=
  (" candidate.\nRespond ONLY with minified JSON that matches this TypeScript type with no additional commentary:\n\x7b\n  \"questions\": [\n    \x7b\n      \"question\": string,\n      \"type\": \"technical\" | \"behavioral\",\n      \"difficulty\": \"Junior\" | \"Mid-Level\" | \"Senior\",\n      \"suggestedAnswer\": string,\n      \"keyTips\": string[],\n      \"keywords\": string[],\n      \"codeExample\"?: string,\n      \"behavioralStructure\"?: string[],\n      \"referenceUrl\"?: string\n    \x7d\n  ]\n\x7d\nGuidance:\n- Mix technical and behavioral prompts.\n- Keep suggestedAnswer concise (<= 120 words) and highlight the most important idea first.\n- Populate keyTips with 2-4 short actionable bullets.\n- Fill keywords with 3-6 important terms; highlight acronyms or tech names.\n- Provide codeExample only when the question is technical and benefits from a short snippet (max 25 lines, use ``` fences inside the string if needed).\n- Provide behavioralStructure only when the question is behavioral, following STAR (Situation, Task, Action, Result) or similar frameworks.\n- Include a credible referenceUrl for deeper learning when relevant.\n- Default difficulty to \"").data

/-- The prompt template after the second `${safeExperience}`. -/
def promptPartC : List Char :=
  ("\" if unsure.\nEnsure the response is valid JSON, no Markdown fences, no trailing commas.").data

/-- `buildPrompt` of the source (lines 75–107). -/
def buildPrompt (jobTitle experience : List Char) : List Char :=
  promptPartA ++ safeExperience experience ++ [' '] ++ safeTitle jobTitle ++
    promptPartB ++ safeExperience experience ++ promptPartC

/-- Spec-side: a string that ends in exactly one `?` (its last character is
`?` and the one before, if any, is not). -/
def endsOneQ (l : List Char) : Bool :=
  l.reverse.headD ' ' == '?' && l.reverse.tail.headD ' ' != '?'

/-- Spec-side: a leading ordinal marker `N.` (digits then a dot). -/
def hasLeadingOrdinalMark (l : List Char) : Bool :=
  let ds := l.takeWhile Char.isDigit
  !ds.isEmpty && ((l.drop ds.length).headD ' ' == '.')

/-- The acceptance test of the Field Sanitizer: the candidate carries a
truthy string `question`. -/
def usableQuestion (item : JVal) : Bool := (questionField item).isSome

/-- A supplied `suggestedAnswer` that does not make line 175 throw: absent,
`null`, or a string. -/
def saWellTyped (item : JVal) : Bool :=
  match jLookup item "suggestedAnswer".data with
  | none => true
  | some .null => true
  | some (.str _) => true
  | some _ => false

/-- A supplied `codeExample` that does not make line 199 throw: absent, a
string, or falsy. -/
def ceWellTyped (item : JVal) : Bool :=
  match jLookup item "codeExample".data with
  | none => true
  | some (.str _) => true
  | some v => !jvTruthy v

/-- Spec-side (claim C8): keep each token's first appearance, expressed by
deleting later repeats rather than by the accumulator `Set` of the code. -/
def firstOccurrences : List (List Char) → List (List Char)
  | [] => []
  | t :: rest => t :: (firstOccurrences rest).filter fun x => decide (x ≠ t)

/-- Every whitespace character is a plain space and no two are adjacent. -/
def wellSpaced : List Char → Bool
  | [] => true
  | c :: rest =>
    (!isJsWs c ||
      (c == ' ' &&
        (match rest with
         | d :: _ => !isJsWs d
         | [] => true))) && wellSpaced rest

/-- Number of question marks. -/
def qMarkCount (l : List Char) : Nat := (l.filter (· == '?')).length

/-- The class of question strings on which the sanitizer is the identity:
nonempty, single internal spaces only, not starting with a space or a digit,
free of backticks, colons and slashes, with exactly one `?`, at the end. -/
def sanitizedShape (v : List Char) : Bool :=
  !v.isEmpty && wellSpaced v &&
  v.headD ' ' != ' ' && !(v.headD ' ').isDigit &&
  (v.all fun c => c != btick && c != ':' && c != '/') &&
  qMarkCount v == 1 && v.getLast? == some '?'

/-- Concrete candidate for the C1 witness. -/
def c1WitnessItem : JVal := .obj [("question".data, .str "Hi?".data)]

/-- The card `sanitizeQuestion` produces for `c1WitnessItem` with fallback
difficulty `"Senior"`. -/
def c1WitnessCard : GeneratedQuestionCard :=
  { question := "Hi?".data
    type := .technical
    difficulty := .senior
    suggestedAnswer :=
      "Describe your approach to Hi? with clear reasoning, practical tradeoffs, and reference to relevant tools or patterns you trust.".data
    keyTips := buildDefaultTips .technical
    keywords := []
    codeExample := none
    behavioralStructure := buildAnswerFlow .technical
    referenceUrl := none }

/-- Concrete candidate for the C1 counterexample: the question is a truthy
string of blanks, so the sanitizer accepts it while `cleanText` erases it. -/
def c1BadItem : JVal := .obj [("question".data, .str "   ".data)]

/-- Concrete candidate whose `suggestedAnswer` is the number `5`: the
JavaScript sanitizer throws a `TypeError` on it. -/
def c9ThrowItem : JVal :=
  .obj [("question".data, .str "What is X".data),
        ("suggestedAnswer".data, .num "5".data)]

/-- Concrete candidate with only a question: `codeExample` and
`referenceUrl` stay absent in the output. -/
def c9PlainItem : JVal := .obj [("question".data, .str "What is X".data)]

/-- Concrete candidate for the C9 witness. -/
def c9WitnessItem : JVal := .obj [("question".data, .str "Tell me about a launch".data)]

/-- The raw text of the C3 scenario: a bare JSON array of two strings. -/
def c3Raw : List Char :=
  "[\"What is a closure?\",\"Explain event loops?\"]".data

/-- The numbered-list scenario raw text of the spec. -/
def c5ScenarioRaw : List Char :=
  "1. Tell me about a conflict\n2. How do you debug memory leaks".data

/-- A raw text with both a contextual `As a/an …?` segment and a numbered
item. -/
def c10Raw : List Char :=
  "1. As an engineer, how do you test?\n2. What is REST?".data

deriving instance DecidableEq for Except

theorem head_dropWhile_false (p : Char → Bool) (l : List Char) (c : Char)
    (h : (l.dropWhile p).head? = some c) : p c = false := by
  have h2 := List.head?_dropWhile_not p l
  rw [h] at h2
  exact h2

theorem getLast_dropWhile (p : Char → Bool) (l : List Char)
    (h : l.dropWhile p ≠ []) : (l.dropWhile p).getLast? = l.getLast? := by
  conv_rhs => rw [← List.takeWhile_append_dropWhile p l]
  rw [List.getLast?_append]
  rcases hg : (l.dropWhile p).getLast? with _ | c
  · rw [List.getLast?_eq_none_iff] at hg
    exact absurd hg h
  · simp [Option.or]

theorem collapseTrailQ_spec (t : List Char) (h : t.getLast? = some '?') :
    collapseTrailQ t = (t.reverse.dropWhile (· == '?')).reverse ++ ['?'] := by
  have hrev : t.reverse.head? = some '?' := by rw [List.head?_reverse]; exact h
  have hlen : (t.reverse.dropWhile (· == '?')).length < t.length := by
    cases htr : t.reverse with
    | nil => rw [htr] at hrev; cases hrev
    | cons a u =>
      rw [htr] at hrev
      injection hrev with ha
      subst ha
      rw [List.dropWhile_cons, if_pos (by decide)]
      have h1 := (List.dropWhile_sublist (l := u) (· == '?')).length_le
      have h2 : t.length = u.length + 1 := by
        rw [← List.length_reverse t, htr, List.length_cons]
      omega
  unfold collapseTrailQ
  rw [if_neg (by simp only [beq_iff_eq]; omega)]

theorem jsTrim_concatQ (b : List Char) :
    jsTrim (b.reverse ++ ['?']) = List.dropWhile isJsWs b.reverse ++ ['?'] := by
  unfold jsTrim
  rw [List.dropWhile_append]
  by_cases hbe : (List.dropWhile isJsWs b.reverse).isEmpty
  · rw [if_pos hbe]
    rw [List.isEmpty_iff] at hbe
    rw [hbe]
    rfl
  · rw [if_neg hbe]
    rw [List.reverse_append,
        show (['?'] : List Char).reverse = ['?'] from rfl,
        show ∀ y : List Char, (['?'] : List Char) ++ y = '?' :: y from fun y => rfl,
        List.dropWhile_cons, if_neg (by decide),
        List.reverse_cons, List.reverse_reverse]

theorem endsOneQ_concat (b : List Char)
    (hlast : ∀ c, b.getLast? = some c → (c == '?') = false) :
    endsOneQ (b ++ ['?']) = true := by
  unfold endsOneQ
  rw [List.reverse_append,
      show (['?'] : List Char).reverse = ['?'] from rfl,
      show ∀ y : List Char, (['?'] : List Char) ++ y = '?' :: y from fun y => rfl]
  simp only [List.headD_cons, List.tail_cons, beq_self_eq_true, Bool.true_and]
  cases hbr : b.reverse with
  | nil => simp
  | cons x xs =>
    simp only [List.headD_cons]
    have hx : b.getLast? = some x := by
      rw [List.getLast?_eq_head?_reverse, hbr]
      rfl
    have hxq := hlast x hx
    simp [bne, hxq]

theorem trimQ_ok (t : List Char) (h : t.getLast? = some '?') :
    jsTrim (collapseTrailQ t) ≠ [] ∧ endsOneQ (jsTrim (collapseTrailQ t)) = true := by
  rw [collapseTrailQ_spec t h, jsTrim_concatQ]
  constructor
  · simp
  · apply endsOneQ_concat
    intro c hc
    have hne : List.dropWhile isJsWs (t.reverse.dropWhile (· == '?')).reverse ≠ [] := by
      intro hcon
      rw [hcon] at hc
      cases hc
    have h3 := getLast_dropWhile isJsWs (t.reverse.dropWhile (· == '?')).reverse hne
    rw [hc, List.getLast?_reverse] at h3
    exact head_dropWhile_false (· == '?') t.reverse c h3.symm

theorem finishQuestion_ok (t : List Char) :
    finishQuestion t ≠ [] ∧ endsOneQ (finishQuestion t) = true := by
  unfold finishQuestion
  by_cases h : t.getLast? = some '?'
  · rw [if_pos (by simp [h])]
    exact trimQ_ok t h
  · rw [if_neg (by simp [h])]
    exact trimQ_ok _ (List.getLast?_concat _)

theorem cleanQuestionText_ends (v : List Char) (h : cleanText v ≠ []) :
    cleanQuestionText v ≠ [] ∧ endsOneQ (cleanQuestionText v) = true := by
  unfold cleanQuestionText
  rw [if_neg (by simp [List.isEmpty_iff, h])]
  exact finishQuestion_ok _

theorem cleanQuestionText_of_empty (v : List Char) (h : cleanText v = []) :
    cleanQuestionText v = [] := by
  unfold cleanQuestionText
  rw [if_pos (by simp [List.isEmpty_iff, h])]

theorem processResponse_bounds (text experience : List Char)
    (cards : List GeneratedQuestionCard)
    (h : processResponseText text experience = .ok cards) :
    1 ≤ cards.length ∧ cards.length ≤ 5 := by
  unfold processResponseText at h
  by_cases h0 : (normalizeQuestions text experience).length = 0
  · rw [if_pos (by simp [h0])] at h
    cases h
  · rw [if_neg (by simp [h0])] at h
    injection h with h1
    subst h1
    rw [List.length_take]
    omega

/-- C1 (amended): for every candidate the Field Sanitizer accepts and turns
into a card, if cleaning the question text (fence stripping, whitespace
collapsing, trimming) leaves something, the card's `question` is non-empty
and ends in exactly one `?`; but when that cleaning yields the empty string
the sanitizer still returns the card, with an empty `question` field — the
record is not dropped. -/
theorem c1_accepted_question_shape (item : JVal) (fb : List Char)
    (card : GeneratedQuestionCard)
    (h : sanitizeQuestion item fb = .ok (some card)) :
    (cleanText ((questionField item).getD []) ≠ [] →
      card.question ≠ [] ∧ endsOneQ card.question = true) ∧
    (cleanText ((questionField item).getD []) = [] → card.question = []) := by
  cases hq : questionField item with
  | none =>
    unfold sanitizeQuestion at h
    rw [hq] at h
    cases h
  | some q =>
    unfold sanitizeQuestion at h
    rw [hq] at h
    dsimp only at h
    cases hsa : jsCleanTextOf (jLookup item "suggestedAnswer".data) with
    | error e => rw [hsa] at h; dsimp only at h; cases h
    | ok sa =>
      rw [hsa] at h
      dsimp only at h
      cases hce : codeExampleField item (typeField item) with
      | error e => rw [hce] at h; dsimp only at h; cases h
      | ok ce =>
        rw [hce] at h
        dsimp only at h
        injection h with h1
        injection h1 with h2
        have hquestion : card.question = cleanQuestionText q := by
          rw [← h2]
        rw [Option.getD_some, hquestion]
        constructor
        · intro hne
          exact cleanQuestionText_ends q hne
        · intro he
          exact cleanQuestionText_of_empty q he

/-- C1 witness: the theorem applied to a concrete accepted candidate. -/
theorem c1_accepted_question_shape_witness :
    cleanText ((questionField c1WitnessItem).getD []) ≠ [] ∧
    c1WitnessCard.question ≠ [] ∧ endsOneQ c1WitnessCard.question = true := by
  refine ⟨by decide, ?_⟩
  exact (c1_accepted_question_shape c1WitnessItem "Senior".data c1WitnessCard
    (by decide)).1 (by decide)

/-- C1 counterexample: the question `"   "` is a truthy string, so the
sanitizer accepts the candidate, yet sanitization yields the empty string
and the record is returned anyway (empty `question`, no trailing `?`) —
it is not dropped. -/
theorem c1_counterexample :
    usableQuestion c1BadItem = true ∧
    (sanitizeQuestion c1BadItem "Mid-Level".data).map (Option.map fun c => c.question) =
      .ok (some []) ∧
    (sanitizeQuestion c1BadItem "Mid-Level".data).map (Option.map fun c => endsOneQ c.question) =
      .ok (some false) := by decide

/-- C2: the generation operation either raises an error or returns between
1 and 5 records (never an empty sequence on success), and an empty or
whitespace-only raw response text yields the `EmptyResult` error. -/
theorem c2_generation_bounds :
    (∀ env fetchResult jobTitle experience cards,
      generateInterviewQuestions env fetchResult jobTitle experience = .ok cards →
      1 ≤ cards.length ∧ cards.length ≤ 5) ∧
    (∀ text experience cards,
      processResponseText text experience = .ok cards →
      1 ≤ cards.length ∧ cards.length ≤ 5) ∧
    (∀ raw experience, jsTrim raw = [] →
      processResponseText raw experience = .error .emptyResult) := by
  refine ⟨?_, fun t e c h => processResponse_bounds t e c h, ?_⟩
  · intro env fetchResult jobTitle experience cards h
    unfold generateInterviewQuestions at h
    dsimp only at h
    split_ifs at h
    cases fetchResult with
    | failed status detail => cases h
    | succeeded payload => exact processResponse_bounds _ _ _ h
  · intro raw experience h
    have hn : normalizeQuestions raw experience = [] := by
      unfold normalizeQuestions
      rw [if_pos (by simp [List.isEmpty_iff, h])]
    unfold processResponseText
    rw [hn]
    rfl

/-- C2 witness: a concrete successful input and the whitespace boundary. -/
theorem c2_generation_bounds_witness :
    (1 ≤ ((normalizeQuestions "1. What is a closure in JavaScript?".data "Mid-Level".data).take 5).length ∧
      ((normalizeQuestions "1. What is a closure in JavaScript?".data "Mid-Level".data).take 5).length ≤ 5) ∧
    processResponseText "   ".data "Mid-Level".data = .error .emptyResult := by
  constructor
  · exact c2_generation_bounds.2.1 "1. What is a closure in JavaScript?".data
      "Mid-Level".data _ (by decide)
  · exact c2_generation_bounds.2.2 "   ".data "Mid-Level".data (by decide)

/-- C3 counterexample: the spec's JSON-array scenario.  The normalizer
returns one record, not two, and its question keeps the leading `["`. -/
theorem c3_counterexample :
    (normalizeQuestions c3Raw "Mid-Level".data).length = 1 ∧
    (normalizeQuestions c3Raw "Mid-Level".data).map (fun c => c.question) ≠
      ["What is a closure?".data, "Explain event loops?".data] := by decide

/-- C3 (amended): a bare JSON array of strings is not recognized by the
JSON stage — `extractJsonBlock` needs a `{…}` block — so the scenario input
falls through to the text fallback, which returns a single record whose
question is the first `?`-terminated fragment `["What is a closure?` (it
does end in exactly one `?`). -/
theorem c3_array_raw_falls_back :
    extractJsonBlock c3Raw = none ∧
    (normalizeQuestions c3Raw "Mid-Level".data).map (fun c => c.question) =
      ["[\"What is a closure?".data] ∧
    (normalizeQuestions c3Raw "Mid-Level".data).map (fun c => endsOneQ c.question) =
      [true] := by decide

/-- C4: the `EmptyResult` condition is thrown as a plain `Error`, the
caller's `catch` shows the same generic message as for `RequestFailed`, and
the distinct empty-result message (tied to a returned empty array) is
unreachable, because a successful generation never returns an empty array. -/
theorem c4_empty_result_conflated :
    handleSubmitMessage (.error .emptyResult) = some API_ERROR_MESSAGE ∧
    (∀ status detail,
      handleSubmitMessage (.error (.requestFailed status detail)) = some API_ERROR_MESSAGE) ∧
    API_ERROR_MESSAGE ≠ EMPTY_RESULT_MESSAGE ∧
    (∀ text experience,
      handleSubmitMessage (processResponseText text experience) = some API_ERROR_MESSAGE ∨
      handleSubmitMessage (processResponseText text experience) = none) := by
  refine ⟨rfl, fun status detail => rfl, by decide, ?_⟩
  intro text experience
  unfold processResponseText
  by_cases h0 : (normalizeQuestions text experience).length = 0
  · rw [if_pos (by simp [h0])]
    left
    rfl
  · rw [if_neg (by simp [h0])]
    right
    unfold handleSubmitMessage
    dsimp only
    rw [if_neg (by simp only [List.length_take, beq_iff_eq]; omega)]

/-- C4 witness: the failing input (a whitespace-only candidate text) shows
the generic message, exactly as a transport failure does. -/
theorem c4_empty_result_conflated_witness :
    handleSubmitMessage (processResponseText "   ".data "Mid-Level".data) =
      some API_ERROR_MESSAGE ∧
    handleSubmitMessage (.error (.requestFailed 500 none)) = some API_ERROR_MESSAGE := by
  constructor
  · rcases c4_empty_result_conflated.2.2.2 "   ".data "Mid-Level".data with h | h
    · exact h
    · exact absurd h (by decide)
  · exact c4_empty_result_conflated.2.1 500 none

/-- C5 counterexample: `"1. 2. 3. What?"` cannot be parsed as JSON, has no
contextual match, and contains a numbered-list item, yet the produced record
keeps a leading ordinal marker: the stage strips only one marker per
segment and the sentence extractor re-selects a fragment starting with
`3.`. -/
theorem c5_counterexample :
    extractJsonBlock "1. 2. 3. What?".data = none ∧
    contextualMatches "1. 2. 3. What?".data = [] ∧
    numberedMatches "1. 2. 3. What?".data = ["1. 2. 3. What?".data] ∧
    (fallbackCardsFromText "1. 2. 3. What?".data "Mid-Level".data).map (fun c => c.question) =
      ["3. What?".data] ∧
    hasLeadingOrdinalMark "3. What?".data = true := by decide

/-- C5 (amended): when the contextual stage finds nothing and the
numbered-segment scan matches, the fallback produces exactly one record per
matched segment whose content is non-empty after stripping its marker,
capped at 5; on the spec's own two-item scenario the records carry the
marker-free questions (a question with further inline ordinals can retain
them, as the counterexample shows). -/
theorem c5_numbered_stage_count :
    (∀ raw fallbackDifficulty,
      contextualMatches raw = [] → numberedMatches raw ≠ [] →
      extractQuestionsFromText raw = numberedQuestions raw ∧
      (fallbackCardsFromText raw fallbackDifficulty).length =
        min (numberedQuestions raw).length 5) ∧
    (fallbackCardsFromText c5ScenarioRaw "Mid-Level".data).map (fun c => c.question) =
      ["Tell me about a conflict?".data, "How do you debug memory leaks?".data] ∧
    (fallbackCardsFromText c5ScenarioRaw "Mid-Level".data).map
        (fun c => hasLeadingOrdinalMark c.question) = [false, false] := by
  refine ⟨?_, by decide, by decide⟩
  intro raw fb h1 h2
  have hext : extractQuestionsFromText raw = numberedQuestions raw := by
    unfold extractQuestionsFromText
    dsimp only
    rw [h1]
    rw [if_neg (by simp)]
    rw [if_pos (by simp [List.isEmpty_eq_false.mpr h2])]
  refine ⟨hext, ?_⟩
  unfold fallbackCardsFromText
  dsimp only
  rw [hext]
  by_cases hqe : (numberedQuestions raw).isEmpty
  · rw [if_pos hqe]
    rw [List.isEmpty_iff] at hqe
    rw [hqe]
    simp
  · rw [if_neg hqe]
    simp only [List.length_map, List.length_take]
    omega

/-- C5 witness: the general count statement at the scenario input. -/
theorem c5_numbered_stage_count_witness :
    extractQuestionsFromText c5ScenarioRaw = numberedQuestions c5ScenarioRaw ∧
    (fallbackCardsFromText c5ScenarioRaw "Junior".data).length =
      min (numberedQuestions c5ScenarioRaw).length 5 :=
  c5_numbered_stage_count.1 c5ScenarioRaw "Junior".data (by decide) (by decide)

/-- C10: whenever the contextual `As a/an …?` pattern matches anywhere in
the raw text, those matches alone (trimmed) become the question list and
the numbered, bulleted, sentence and line stages are never consulted. -/
theorem c10_contextual_preempts (raw : List Char)
    (h : contextualMatches raw ≠ []) :
    extractQuestionsFromText raw = (contextualMatches raw).map jsTrim := by
  unfold extractQuestionsFromText
  dsimp only
  rw [if_pos (by simp [List.isEmpty_eq_false.mpr h])]

/-- C10 witness: a raw text carrying both a contextual segment and numbered
items keeps only the contextual match; the numbered scan would have found
two items. -/
theorem c10_contextual_preempts_witness :
    contextualMatches c10Raw ≠ [] ∧
    extractQuestionsFromText c10Raw = (contextualMatches c10Raw).map jsTrim ∧
    extractQuestionsFromText c10Raw = ["1. As an engineer, how do you test?".data] ∧
    numberedMatches c10Raw =
      ["1. As an engineer, how do you test?".data, "2. What is REST?".data] :=
  ⟨by decide, c10_contextual_preempts c10Raw (by decide), by decide, by decide⟩

theorem dropWhile_eq_self_of_head (p : Char → Bool) (l : List Char)
    (h : ∀ c, l.head? = some c → p c = false) : l.dropWhile p = l := by
  cases l with
  | nil => rfl
  | cons a t => rw [List.dropWhile_cons, if_neg (by simp [h a rfl])]

theorem jsTrim_head (l : List Char) :
    ∀ c, (jsTrim l).head? = some c → isJsWs c = false := by
  intro c hc
  unfold jsTrim at hc
  rw [List.head?_reverse] at hc
  have hne : List.dropWhile isJsWs (l.dropWhile isJsWs).reverse ≠ [] := by
    intro hcon
    rw [hcon] at hc
    cases hc
  rw [getLast_dropWhile isJsWs _ hne, List.getLast?_reverse] at hc
  exact head_dropWhile_false isJsWs l c hc

theorem jsTrim_getLast (l : List Char) :
    ∀ c, (jsTrim l).getLast? = some c → isJsWs c = false := by
  intro c hc
  unfold jsTrim at hc
  rw [List.getLast?_reverse] at hc
  exact head_dropWhile_false isJsWs _ c hc

theorem jsTrim_of_clean (l : List Char)
    (h1 : ∀ c, l.head? = some c → isJsWs c = false)
    (h2 : ∀ c, l.getLast? = some c → isJsWs c = false) : jsTrim l = l := by
  unfold jsTrim
  rw [dropWhile_eq_self_of_head isJsWs l h1]
  rw [dropWhile_eq_self_of_head isJsWs l.reverse
    (fun c hc => h2 c (by rw [List.head?_reverse] at hc; exact hc))]
  exact List.reverse_reverse l

theorem jsTrim_idem (l : List Char) : jsTrim (jsTrim l) = jsTrim l :=
  jsTrim_of_clean _ (jsTrim_head l) (jsTrim_getLast l)

/-- C6: the Prompt Builder is a pure function whose output only depends on
the trimmed inputs, an empty (after trimming) role defaults to
`software engineer` and an empty experience to `mid-level`, the output is
never empty, and it contains both sanitized tokens as contiguous
segments. -/
theorem c6_prompt_builder (role experience : List Char) :
    buildPrompt role experience ≠ [] ∧
    buildPrompt role experience = buildPrompt (jsTrim role) (jsTrim experience) ∧
    (jsTrim role = [] → safeTitle role = "software engineer".data) ∧
    (jsTrim experience = [] → safeExperience experience = "mid-level".data) ∧
    (jsTrim role ≠ [] → safeTitle role = jsTrim role) ∧
    (jsTrim experience ≠ [] → safeExperience experience = jsTrim experience) ∧
    (∃ t u, buildPrompt role experience = t ++ safeTitle role ++ u) ∧
    (∃ t u, buildPrompt role experience = t ++ safeExperience experience ++ u) := by
  have hsafeT : safeTitle (jsTrim role) = safeTitle role := by
    unfold safeTitle
    rw [jsTrim_idem]
  have hsafeE : safeExperience (jsTrim experience) = safeExperience experience := by
    unfold safeExperience
    rw [jsTrim_idem]
  refine ⟨?_, ?_, ?_, ?_, ?_, ?_, ?_, ?_⟩
  · intro hcon
    have hlen := congrArg List.length hcon
    unfold buildPrompt at hlen
    simp only [List.length_append, List.length_nil] at hlen
    have hA : 0 < promptPartA.length := by decide
    omega
  · unfold buildPrompt
    rw [hsafeT, hsafeE]
  · intro h
    unfold safeTitle
    rw [if_pos (by simp [List.isEmpty_iff, h])]
  · intro h
    unfold safeExperience
    rw [if_pos (by simp [List.isEmpty_iff, h])]
  · intro h
    unfold safeTitle
    rw [if_neg (by simp [List.isEmpty_iff, h])]
  · intro h
    unfold safeExperience
    rw [if_neg (by simp [List.isEmpty_iff, h])]
  · exact ⟨promptPartA ++ safeExperience experience ++ [' '],
      promptPartB ++ safeExperience experience ++ promptPartC,
      by unfold buildPrompt; simp [List.append_assoc]⟩
  · exact ⟨promptPartA,
      [' '] ++ safeTitle role ++ promptPartB ++ safeExperience experience ++ promptPartC,
      by unfold buildPrompt; simp [List.append_assoc]⟩

/-- C6 witness: a padded role and an empty experience level. -/
theorem c6_prompt_builder_witness :
    buildPrompt " Frontend Engineer ".data "".data ≠ [] ∧
    safeTitle " Frontend Engineer ".data = jsTrim " Frontend Engineer ".data ∧
    safeExperience "".data = "mid-level".data ∧
    (∃ t u, buildPrompt " Frontend Engineer ".data "".data =
      t ++ safeTitle " Frontend Engineer ".data ++ u) := by
  have h := c6_prompt_builder " Frontend Engineer ".data "".data
  exact ⟨h.1, h.2.2.2.2.1 (by decide), h.2.2.2.1 (by decide), h.2.2.2.2.2.2.1⟩

theorem setDedupGo_filter (l : List (List Char)) :
    ∀ seen, setDedupGo seen l = (firstOccurrences l).filter fun x => decide (x ∉ seen) := by
  induction l with
  | nil => intro seen; rfl
  | cons t rest ih =>
    intro seen
    unfold setDedupGo firstOccurrences
    rw [List.filter_cons]
    by_cases ht : t ∈ seen
    · rw [if_pos ht, if_neg (by simp [ht])]
      rw [ih seen, List.filter_filter]
      apply List.filter_congr
      intro x _
      by_cases hx : x ∈ seen
      · simp [hx]
      · have hxt : x ≠ t := fun hEq => hx (hEq ▸ ht)
        simp [hx, hxt]
    · rw [if_neg ht, if_pos (by simp [ht])]
      rw [ih (t :: seen), List.filter_filter]
      congr 1
      apply List.filter_congr
      intro x _
      by_cases h1 : x = t
      · simp [h1]
      · by_cases h2 : x ∈ seen
        · simp [List.mem_cons, h1, h2]
        · simp [List.mem_cons, h1, h2]

theorem setDedup_eq_firstOccurrences (l : List (List Char)) :
    setDedup l = firstOccurrences l := by
  unfold setDedup
  rw [setDedupGo_filter]
  apply List.filter_eq_self.mpr
  intro x _
  simp

theorem firstOccurrences_nodup (l : List (List Char)) :
    (firstOccurrences l).Nodup := by
  induction l with
  | nil => exact List.nodup_nil
  | cons t rest ih =>
    unfold firstOccurrences
    refine List.Nodup.cons ?_ (List.Nodup.filter _ ih)
    intro hmem
    have := (List.mem_filter.mp hmem).2
    simp at this

/-- C8: the automatically derived keywords are exactly the first five
distinct tokens of length greater than two — deduplicated case-insensitively
by lower-casing, in order of first appearance — capitalized; there are at
most five and the deduplicated tokens are pairwise distinct. -/
theorem c8_keywords_first_distinct (question : List Char) :
    deriveKeywords question =
      ((firstOccurrences (loweredTokens question)).take 5).map capitalize ∧
    (deriveKeywords question).length ≤ 5 ∧
    (setDedup (loweredTokens question)).Nodup := by
  refine ⟨?_, ?_, ?_⟩
  · unfold deriveKeywords
    rw [setDedup_eq_firstOccurrences]
  · unfold deriveKeywords
    simp only [List.length_map, List.length_take]
    omega
  · rw [setDedup_eq_firstOccurrences]
    exact firstOccurrences_nodup _

/-- C8 witness: the characterization at a concrete question. -/
theorem c8_keywords_first_distinct_witness :
    deriveKeywords "What is a closure in JavaScript?".data =
      ((firstOccurrences (loweredTokens "What is a closure in JavaScript?".data)).take 5).map
        capitalize ∧
    deriveKeywords "What is a closure in JavaScript?".data =
      ["What".data, "Closure".data, "Javascript".data] :=
  ⟨(c8_keywords_first_distinct "What is a closure in JavaScript?".data).1, by decide⟩

theorem append_left_ne_nil (a b : List Char) (ha : a ≠ []) : a ++ b ≠ [] := by
  cases a with
  | nil => exact absurd rfl ha
  | cons x xs => simp

/-- C9 (amended): the Field Sanitizer returns `none` exactly when the
candidate lacks a truthy string `question`; on accepted candidates whose
supplied `suggestedAnswer` and `codeExample` have their declared types it
does not throw and returns a card whose `keyTips`, `suggestedAnswer` and
`behavioralStructure` are always non-empty (defaulted when absent).
`codeExample` and `referenceUrl`, by contrast, may stay absent. -/
theorem c9_sanitizer_totality (item : JVal) (fb : List Char) :
    (usableQuestion item = false → sanitizeQuestion item fb = .ok none) ∧
    (sanitizeQuestion item fb = .ok none → usableQuestion item = false) ∧
    (usableQuestion item = true → saWellTyped item = true → ceWellTyped item = true →
      ∃ card, sanitizeQuestion item fb = .ok (some card) ∧
        card.keyTips ≠ [] ∧ card.suggestedAnswer ≠ [] ∧ card.behavioralStructure ≠ []) := by
  refine ⟨?_, ?_, ?_⟩
  · intro h
    unfold usableQuestion at h
    cases hq : questionField item with
    | none =>
      unfold sanitizeQuestion
      rw [hq]
    | some q =>
      rw [hq] at h
      simp at h
  · intro h
    cases hq : questionField item with
    | none =>
      unfold usableQuestion
      rw [hq]
      rfl
    | some q =>
      exfalso
      unfold sanitizeQuestion at h
      rw [hq] at h
      dsimp only at h
      cases hsa : jsCleanTextOf (jLookup item "suggestedAnswer".data) with
      | error e => rw [hsa] at h; dsimp only at h; cases h
      | ok sa =>
        rw [hsa] at h
        dsimp only at h
        cases hce : codeExampleField item (typeField item) with
        | error e => rw [hce] at h; dsimp only at h; cases h
        | ok ce =>
          rw [hce] at h
          dsimp only at h
          injection h with h1
          cases h1
  · intro hu hsa hce
    cases hq : questionField item with
    | none =>
      unfold usableQuestion at hu
      rw [hq] at hu
      simp at hu
    | some q =>
      have hsaok : ∃ sa, jsCleanTextOf (jLookup item "suggestedAnswer".data) = .ok sa := by
        unfold saWellTyped at hsa
        unfold jsCleanTextOf
        cases hl : jLookup item "suggestedAnswer".data with
        | none => exact ⟨_, rfl⟩
        | some v =>
          rw [hl] at hsa
          cases v with
          | null => exact ⟨_, rfl⟩
          | str s => exact ⟨_, rfl⟩
          | bool b => cases hsa
          | num n => cases hsa
          | arr a => cases hsa
          | obj o => cases hsa
      have hceok : ∃ ce, codeExampleField item (typeField item) = .ok ce := by
        unfold ceWellTyped at hce
        cases htype : typeField item with
        | behavioral =>
          unfold codeExampleField
          cases jLookup item "codeExample".data with
          | none => exact ⟨_, rfl⟩
          | some v => exact ⟨_, rfl⟩
        | technical =>
          unfold codeExampleField
          cases hl : jLookup item "codeExample".data with
          | none => exact ⟨_, rfl⟩
          | some v =>
            rw [hl] at hce
            dsimp only
            by_cases htr : jvTruthy v = true
            · cases v with
              | str s => rw [if_pos htr]; exact ⟨_, rfl⟩
              | null => exact absurd htr (by decide)
              | bool b =>
                dsimp only at hce
                rw [htr] at hce
                cases hce
              | num n =>
                dsimp only at hce
                rw [htr] at hce
                cases hce
              | arr a =>
                dsimp only at hce
                rw [htr] at hce
                cases hce
              | obj o =>
                dsimp only at hce
                rw [htr] at hce
                cases hce
            · rw [if_neg htr]
              exact ⟨_, rfl⟩
      obtain ⟨sa, hsaE⟩ := hsaok
      obtain ⟨ce, hceE⟩ := hceok
      unfold sanitizeQuestion
      rw [hq]
      dsimp only
      rw [hsaE]
      dsimp only
      rw [hceE]
      dsimp only
      refine ⟨_, rfl, ?_, ?_, ?_⟩
      · dsimp only
        by_cases ht : (cleanedArrayField item "keyTips".data).isEmpty
        · rw [if_neg (by simp [ht])]
          cases typeField item <;> decide
        · rw [if_pos (by simp [ht])]
          exact List.isEmpty_eq_false.mp (Bool.of_not_eq_true ht)
      · dsimp only
        by_cases hs : sa.isEmpty
        · rw [if_neg (by simp [hs])]
          cases typeField item with
          | technical =>
            dsimp only
            exact append_left_ne_nil _ _ (append_left_ne_nil _ _ (by decide))
          | behavioral =>
            dsimp only
            exact append_left_ne_nil _ _ (append_left_ne_nil _ _ (by decide))
        · rw [if_pos (by simp [hs])]
          exact List.isEmpty_eq_false.mp (Bool.of_not_eq_true hs)
      · dsimp only
        by_cases hf : (cleanedArrayField item "behavioralStructure".data).isEmpty
        · rw [if_neg (by simp [hf])]
          cases typeField item <;> decide
        · rw [if_pos (by simp [hf])]
          exact List.isEmpty_eq_false.mp (Bool.of_not_eq_true hf)

/-- C9 witness: the defaulting statement at a concrete behavioral
candidate. -/
theorem c9_sanitizer_totality_witness :
    ∃ card, sanitizeQuestion c9WitnessItem "Junior".data = .ok (some card) ∧
      card.keyTips ≠ [] ∧ card.suggestedAnswer ≠ [] ∧ card.behavioralStructure ≠ [] :=
  (c9_sanitizer_totality c9WitnessItem "Junior".data).2.2 (by decide) (by decide) (by decide)

/-- C9 counterexample: a candidate whose `suggestedAnswer` is the number 5
makes the sanitizer throw (the `TypeError` of `cleanText(5)`), and even for
a plain accepted candidate the absent `codeExample` and `referenceUrl` stay
absent in the output instead of being resolved to generated defaults. -/
theorem c9_counterexample :
    usableQuestion c9ThrowItem = true ∧
    sanitizeQuestion c9ThrowItem "Mid-Level".data = .error () ∧
    (sanitizeQuestion c9PlainItem "Mid-Level".data).map
      (Option.map fun c => (c.codeExample, c.referenceUrl)) = .ok (some (none, none)) := by
  decide

theorem wellSpaced_mem (v : List Char) (h : wellSpaced v = true) :
    ∀ c ∈ v, isJsWs c = true → c = ' ' := by
  induction v with
  | nil => intro c hc; cases hc
  | cons a rest ih =>
    unfold wellSpaced at h
    rw [Bool.and_eq_true] at h
    intro c hc hw
    rcases List.mem_cons.mp hc with rfl | hmem
    · rcases Bool.or_eq_true_iff.mp h.1 with h1 | h1
      · rw [hw] at h1; cases h1
      · rw [Bool.and_eq_true] at h1
        exact beq_iff_eq.mp h1.1
    · exact ih h.2 c hmem hw

theorem wellSpaced_tail (a : Char) (rest : List Char)
    (h : wellSpaced (a :: rest) = true) : wellSpaced rest = true := by
  unfold wellSpaced at h
  rw [Bool.and_eq_true] at h
  exact h.2

theorem removeFencesF_id (fuel : Nat) :
    ∀ l : List Char, (∀ c ∈ l, (c == btick) = false) → removeFencesF fuel l = l := by
  induction fuel with
  | zero => intro l _; rfl
  | succ n ih =>
    intro l hl
    cases l with
    | nil => rfl
    | cons c rest =>
      unfold removeFencesF
      rw [if_neg]
      · rw [ih rest fun d hd => hl d (List.mem_cons_of_mem c hd)]
      · have hc := hl c (List.mem_cons_self c rest)
        unfold startsWithL
        simp only [Bool.and_eq_true, beq_iff_eq]
        intro hcon
        rw [← hcon.1] at hc
        simp at hc

theorem removeBlockCommentsF_id (fuel : Nat) :
    ∀ l : List Char, (∀ c ∈ l, (c == '/') = false) → removeBlockCommentsF fuel l = l := by
  induction fuel with
  | zero => intro l _; rfl
  | succ n ih =>
    intro l hl
    cases l with
    | nil => rfl
    | cons c rest =>
      unfold removeBlockCommentsF
      rw [if_neg]
      · rw [ih rest fun d hd => hl d (List.mem_cons_of_mem c hd)]
      · have hc := hl c (List.mem_cons_self c rest)
        unfold startsWithL
        simp only [Bool.and_eq_true, beq_iff_eq]
        intro hcon
        rw [← hcon.1] at hc
        simp at hc

theorem collapseWsGo_id (v : List Char) (h : wellSpaced v = true) :
    collapseWsGo false v = v ∧
    ((∀ c, v.head? = some c → isJsWs c = false) → collapseWsGo true v = v) := by
  induction v with
  | nil => exact ⟨rfl, fun _ => rfl⟩
  | cons a rest ih =>
    have hrest := wellSpaced_tail a rest h
    obtain ⟨ih1, ih2⟩ := ih hrest
    by_cases ha : isJsWs a = true
    · have haSp : a = ' ' := wellSpaced_mem _ h a (List.mem_cons_self a rest) ha
      have hnext : ∀ c, rest.head? = some c → isJsWs c = false := by
        intro c hc
        unfold wellSpaced at h
        rw [Bool.and_eq_true] at h
        rcases Bool.or_eq_true_iff.mp h.1 with h1 | h1
        · rw [ha] at h1; cases h1
        · rw [Bool.and_eq_true] at h1
          have h2 := h1.2
          cases rest with
          | nil => cases hc
          | cons d drest =>
            injection hc with hcd
            subst hcd
            simpa using h2
      constructor
      · unfold collapseWsGo
        rw [if_pos ha, if_neg (by simp)]
        rw [ih2 hnext, haSp]
      · intro hhead
        have := hhead a rfl
        rw [ha] at this
        cases this
    · have ha' : isJsWs a = false := by simpa using ha
      constructor
      · unfold collapseWsGo
        rw [if_neg (by simp [ha'])]
        rw [ih1]
      · intro _
        unfold collapseWsGo
        rw [if_neg (by simp [ha'])]
        rw [ih1]

theorem splitRunsGo_nosep (p : Char → Bool) (v : List Char)
    (h : ∀ c ∈ v, p c = false) :
    ∀ cur, splitRunsGo p cur v = [cur.reverse ++ v] := by
  induction v with
  | nil => intro cur; unfold splitRunsGo; rw [List.append_nil]
  | cons a rest ih =>
    intro cur
    unfold splitRunsGo
    rw [if_neg (by simp [h a (List.mem_cons_self a rest)])]
    rw [ih (fun c hc => h c (List.mem_cons_of_mem a hc)) (a :: cur)]
    simp

theorem wsThenColon_mem (l : List Char) (h : wsThenColon l = true) : ':' ∈ l := by
  unfold wsThenColon at h
  cases hd : l.dropWhile isJsWs with
  | nil => rw [hd] at h; cases h
  | cons c rest =>
    rw [hd] at h
    have hc : c = ':' := beq_iff_eq.mp h
    subst hc
    have : ':' ∈ l.dropWhile isJsWs := by rw [hd]; exact List.mem_cons_self _ _
    exact (List.dropWhile_sublist isJsWs).mem this

theorem wordColonAt_mem (l : List Char) (h : wordColonAt l = true) : ':' ∈ l := by
  unfold wordColonAt at h
  rw [List.any_eq_true] at h
  obtain ⟨w, _, hw⟩ := h
  rw [Bool.and_eq_true] at hw
  have := wsThenColon_mem _ hw.2
  exact (List.drop_sublist w.length l).mem this

theorem metadataIndexFrom_none (l : List Char) (h : ∀ c ∈ l, (c == ':') = false) :
    ∀ i, metadataIndexFrom i l = none := by
  induction l with
  | nil => intro i; rfl
  | cons a rest ih =>
    intro i
    unfold metadataIndexFrom
    rw [if_neg]
    · exact ih (fun c hc => h c (List.mem_cons_of_mem a hc)) (i + 1)
    · intro hcon
      have := h ':' (wordColonAt_mem _ hcon)
      simp at this

theorem metadataTruncate_id (l : List Char) (h : ∀ c ∈ l, (c == ':') = false) :
    metadataTruncate l = l := by
  unfold metadataTruncate
  rw [metadataIndexFrom_none l h 0]

theorem selectQuestionLine_id (v : List Char) (hne : v ≠ [])
    (hnl : ∀ c ∈ v, (c == '\r' || c == '\n') = false)
    (htrim : jsTrim v = v) : selectQuestionLine v = v := by
  have hv : v.isEmpty = false := List.isEmpty_eq_false.mpr hne
  unfold selectQuestionLine splitRuns
  rw [splitRunsGo_nosep _ v hnl []]
  simp only [List.reverse_nil, List.nil_append, List.map_cons, List.map_nil, htrim,
    List.filter_cons, hv, Bool.not_false, if_pos]
  cases hcl : isCodeLike v <;> cases hkw : hasQuestionKeyword v <;>
    simp [List.find?, hcl, hkw, Option.orElse, htrim]

theorem stripLeadingOrdinal_id (v : List Char)
    (h : ∀ c, v.head? = some c → c.isDigit = false) : stripLeadingOrdinal v = v := by
  cases v with
  | nil => rfl
  | cons a rest =>
    have hd : a.isDigit = false := h a rfl
    unfold stripLeadingOrdinal
    rw [List.takeWhile_cons, if_neg (show ¬(a.isDigit = true) by rw [hd]; simp)]
    rfl

theorem questionSentencesGo_noq (s0 : List Char) :
    ∀ cur, (∀ c ∈ s0, (c == '?') = false) →
      questionSentencesGo cur (s0 ++ ['?']) =
        if cur.reverse ++ s0 = [] then [] else [cur.reverse ++ s0 ++ ['?']] := by
  induction s0 with
  | nil =>
    intro cur _
    show questionSentencesGo cur ['?'] = _
    unfold questionSentencesGo
    rw [if_pos (by decide)]
    cases cur with
    | nil => simp [questionSentencesGo]
    | cons x xs =>
      rw [if_neg (by simp)]
      simp [questionSentencesGo]
  | cons c s0' ih =>
    intro cur h
    have hc := h c (List.mem_cons_self c s0')
    rw [List.cons_append]
    unfold questionSentencesGo
    rw [if_neg (by simp [hc])]
    rw [ih (c :: cur) (fun d hd => h d (List.mem_cons_of_mem c hd))]
    rw [List.reverse_cons, if_neg (by simp), if_neg (by simp)]
    simp [List.append_assoc]

theorem pickQuestionSentence_id (s0 : List Char)
    (h : ∀ c ∈ s0, (c == '?') = false)
    (htrim : jsTrim (s0 ++ ['?']) = s0 ++ ['?']) :
    pickQuestionSentence (s0 ++ ['?']) = s0 ++ ['?'] := by
  unfold pickQuestionSentence questionSentences
  rw [questionSentencesGo_noq s0 [] h]
  simp only [List.reverse_nil, List.nil_append]
  by_cases hs : s0 = []
  · subst hs
    simp
  · rw [if_neg hs]
    cases hcl : containsLetter (s0 ++ ['?']) <;>
      simp [List.find?, hcl, htrim]

theorem collapseTrailQ_structured (s0 : List Char)
    (h : ∀ c ∈ s0, (c == '?') = false) :
    collapseTrailQ (s0 ++ ['?']) = s0 ++ ['?'] := by
  rw [collapseTrailQ_spec _ (List.getLast?_concat _)]
  rw [List.reverse_append,
      show (['?'] : List Char).reverse = ['?'] from rfl,
      show ∀ y : List Char, (['?'] : List Char) ++ y = '?' :: y from fun y => rfl,
      List.dropWhile_cons, if_pos (by decide)]
  have hdw : List.dropWhile (· == '?') s0.reverse = s0.reverse :=
    dropWhile_eq_self_of_head _ _
      (fun c hc => h c (List.mem_reverse.mp (List.mem_of_mem_head? hc)))
  rw [hdw, List.reverse_reverse]

theorem finishQuestion_structured (s0 : List Char)
    (h : ∀ c ∈ s0, (c == '?') = false)
    (htrim : jsTrim (s0 ++ ['?']) = s0 ++ ['?']) :
    finishQuestion (s0 ++ ['?']) = s0 ++ ['?'] := by
  unfold finishQuestion
  rw [if_pos (by simp [List.getLast?_concat])]
  rw [collapseTrailQ_structured s0 h, htrim]

/-- C7 (amended): the question sanitizer is the identity on strings of
`sanitizedShape`: nonempty, trimmed with single internal spaces only, not
starting with a space or a digit, free of backticks, colons and slashes,
with exactly one `?`, at the end.  (On merely "trimmed with a single
trailing `?`" strings it can rewrite the text, as the counterexample
shows.) -/
theorem c7_sanitizer_fixpoint (v : List Char) (h : sanitizedShape v = true) :
    cleanQuestionText v = v := by
  unfold sanitizedShape at h
  simp only [Bool.and_eq_true] at h
  obtain ⟨⟨⟨⟨⟨⟨h1, h2⟩, h3⟩, h4⟩, h5⟩, h6⟩, h7⟩ := h
  have hne : v ≠ [] := List.isEmpty_eq_false.mp (by simpa using h1)
  have hlast : v.getLast? = some '?' := by simpa using h7
  have hqc : qMarkCount v = 1 := by simpa using h6
  have hall := List.all_eq_true.mp h5
  have hbtick : ∀ c ∈ v, (c == btick) = false := by
    intro c hc
    have h' := hall c hc
    simp only [Bool.and_eq_true] at h'
    simpa [bne] using h'.1.1
  have hcolon : ∀ c ∈ v, (c == ':') = false := by
    intro c hc
    have h' := hall c hc
    simp only [Bool.and_eq_true] at h'
    simpa [bne] using h'.1.2
  have hslash : ∀ c ∈ v, (c == '/') = false := by
    intro c hc
    have h' := hall c hc
    simp only [Bool.and_eq_true] at h'
    simpa [bne] using h'.2
  have hheadws : ∀ c, v.head? = some c → isJsWs c = false := by
    intro c hc
    by_contra hcon
    have hws : isJsWs c = true := by simpa using hcon
    have hsp := wellSpaced_mem v h2 c (List.mem_of_mem_head? hc) hws
    subst hsp
    cases v with
    | nil => cases hc
    | cons a rest =>
      rw [List.head?_cons] at hc
      injection hc with hac
      rw [List.headD_cons] at h3
      rw [hac] at h3
      simp at h3
  have hheaddigit : ∀ c, v.head? = some c → c.isDigit = false := by
    intro c hc
    cases v with
    | nil => cases hc
    | cons a rest =>
      rw [List.head?_cons] at hc
      injection hc with hac
      rw [List.headD_cons] at h4
      rw [hac] at h4
      simpa using h4
  have hlastws : ∀ c, v.getLast? = some c → isJsWs c = false := by
    intro c hc
    rw [hlast] at hc
    injection hc with hc2
    rw [← hc2]
    decide
  have htrim : jsTrim v = v := jsTrim_of_clean v hheadws hlastws
  obtain ⟨s0, hs0⟩ : ∃ s0, v = s0 ++ ['?'] := by
    refine ⟨v.dropLast, ?_⟩
    have hd := List.dropLast_append_getLast hne
    have hg : v.getLast hne = '?' := by
      have := List.getLast?_eq_getLast v hne
      rw [hlast] at this
      injection this with h'
      exact h'.symm
    rw [hg] at hd
    exact hd.symm
  have hs0q : ∀ c ∈ s0, (c == '?') = false := by
    have hcount : (List.filter (· == '?') s0).length = 0 := by
      have : qMarkCount v = (List.filter (· == '?') s0).length + 1 := by
        rw [hs0]
        unfold qMarkCount
        rw [List.filter_append]
        simp
      omega
    rw [List.length_eq_zero] at hcount
    intro c hc
    by_contra hcon
    have hct : (c == '?') = true := by simpa using hcon
    have : c ∈ List.filter (· == '?') s0 := List.mem_filter.mpr ⟨hc, hct⟩
    rw [hcount] at this
    cases this
  have hno_nl : ∀ c ∈ v, (c == '\r' || c == '\n') = false := by
    intro c hcv
    cases hb : (c == '\r' || c == '\n') with
    | false => rfl
    | true =>
      exfalso
      rcases Bool.or_eq_true_iff.mp hb with hcr | hcn
      · have hc : c = '\r' := beq_iff_eq.mp hcr
        subst hc
        exact absurd (wellSpaced_mem v h2 '\r' hcv (by decide)) (by decide)
      · have hc : c = '\n' := beq_iff_eq.mp hcn
        subst hc
        exact absurd (wellSpaced_mem v h2 '\n' hcv (by decide)) (by decide)
  have hclean : cleanText v = v := by
    unfold cleanText removeFences collapseWs
    rw [removeFencesF_id v.length v hbtick, (collapseWsGo_id v h2).1]
    exact htrim
  have hcomments : removeBlockComments v = v := by
    unfold removeBlockComments
    exact removeBlockCommentsF_id v.length v hslash
  have hmeta : metadataTruncate v = v := metadataTruncate_id v hcolon
  have hselect : selectQuestionLine v = v := selectQuestionLine_id v hne hno_nl htrim
  have hstrip : stripLeadingOrdinal v = v := stripLeadingOrdinal_id v hheaddigit
  have hpick : pickQuestionSentence v = v := by
    rw [hs0]
    exact pickQuestionSentence_id s0 hs0q (by rw [← hs0]; exact htrim)
  have hcollapse : collapseWs v = v := (collapseWsGo_id v h2).1
  have hfinish : finishQuestion v = v := by
    rw [hs0]
    exact finishQuestion_structured s0 hs0q (by rw [← hs0]; exact htrim)
  unfold cleanQuestionText
  rw [hclean]
  rw [if_neg (by simp [List.isEmpty_iff, hne])]
  rw [hcomments, hmeta, hselect, hstrip, hpick, hcollapse, htrim, hfinish]

/-- C7 witness: a well-shaped question string is left unchanged. -/
theorem c7_sanitizer_fixpoint_witness :
    sanitizedShape "What is a closure?".data = true ∧
    cleanQuestionText "What is a closure?".data = "What is a closure?".data :=
  ⟨by decide, c7_sanitizer_fixpoint "What is a closure?".data (by decide)⟩

/-- C7 counterexample: `"1. What?"` is trimmed and ends in a single `?`,
yet sanitizing it strips the ordinal marker and returns `"What?"`. -/
theorem c7_counterexample :
    jsTrim "1. What?".data = "1. What?".data ∧
    endsOneQ "1. What?".data = true ∧
    cleanQuestionText "1. What?".data = "What?".data ∧
    cleanQuestionText "1. What?".data ≠ "1. What?".data := by decide
